import Mathlib

/-!
Shallow embedding of `filter/filter_planet_by_cats.cpp` (mapsme/osm_conflate):
the category-matching and spatial-eligibility engine.  Machine coordinates are
osmium fixed-point int32 values modelled as `Int`; strings are Lean `String`s.
-/

namespace PlanetFilter

/-- C locale `std::isspace` on the characters that occur in text input. -/
def isspaceC (c : Char) : Bool :=
  c == (' ') || c == ('\t') || c == ('\n') || c == ('\x0b') || c == ('\x0c') || c == ('\r')

/-- `std::string::operator[]`: in-bounds read, and `s[s.length()]` is the NUL
character (well-defined since C++11).  Reads further out of bounds are
undefined behaviour in the C++ and are unreachable in the modelled domain. -/
def charAt (s : List Char) (i : Nat) : Char :=
  s.getD i (Char.ofNat 0)

/-- `std::string::find(delimiter, start)`: index of the first occurrence of
`delim` at position `start` or later, `none` for `npos`. -/
def findFrom (s : List Char) (delim : Char) (start : Nat) : Option Nat :=
  match (s.drop start).findIdx? (fun c => c == delim) with
  | none => none
  | some i => some (start + i)

/-- The trailing-whitespace scan of `AmenityHandler::SplitTrim`:
`while (tmpend > start && std::isspace(s[tmpend])) tmpend++;` — note the
source increments `tmpend` (this is the loop exactly as written).  The scan
stops at the NUL at index `s.length` at the latest, so the fuel
`s.length + 2` is always sufficient. -/
def scanBack (s : List Char) (start : Nat) (fuel : Nat) (tmpend : Nat) : Nat :=
  match fuel with
  | 0 => tmpend
  | fuel + 1 =>
    if tmpend > start && isspaceC (charAt s tmpend) then
      scanBack s start fuel (tmpend + 1)
    else tmpend

/-- One iteration of the `while (start < s.length())` loop of
`AmenityHandler::SplitTrim`, with explicit fuel (each iteration strictly
increases `start`, so `s.length + 2` iterations always suffice).
Returns `none` exactly when the C++ is undefined: when `end == 0`
(the token starts with the delimiter at position 0), `tmpend = end - 1`
wraps to `SIZE_MAX` and `s[tmpend]` is read out of bounds. -/
def splitTrimAux (s : List Char) (delim : Char) (limit : Nat) :
    Nat → Nat → List (List Char) → Option (List (List Char))
  | 0, _, _ => none
  | fuel + 1, start, acc =>
    if start < s.length then
      let end0 :=
        match findFrom s delim start with
        | none => s.length
        | some e => if acc.length == limit then s.length else e
      if end0 == 0 then none
      else
        let seg := (s.drop start).take (end0 - start)
        let start1 := start + (seg.takeWhile isspaceC).length
        let tmpend := scanBack s start1 (s.length + 2) (end0 - 1)
        let tok := (s.drop start1).take (tmpend + 1 - start1)
        splitTrimAux s delim limit fuel (end0 + 1) (acc ++ [tok])
    else some acc

/-- `AmenityHandler::SplitTrim(s, delimiter, limit, target)`.  The result is
the final contents of `target`; `none` models the out-of-bounds read
(undefined behaviour) described at `splitTrimAux`.  Note that in
`substr(start, tmpend - start + 1)` the count is `size_t` arithmetic: when
`tmpend == start - 1` it is `0`, which `tmpend + 1 - start` reproduces in
truncating `Nat` subtraction. -/
def SplitTrim (s : String) (delim : Char) (limit : Nat) : Option (List String) :=
  (splitTrimAux s.data delim limit (s.data.length + 2) 0 []).map
    (fun ts => ts.map (fun t => String.mk t))

/-- A query: vector of clauses, each clause a vector of strings
(`typedef std::vector<std::vector<std::string>> TQuery`). -/
abbrev TQuery := List (List String)

/-- `AmenityHandler::ParseQuery`: split on the pipe character with limit 100,
split each part on the equals sign with limit 100, keep non-empty key lists. -/
def ParseQuery (query : String) : Option TQuery := do
  let parts ← SplitTrim query ('|') 100
  let kss ← parts.mapM (fun part => SplitTrim part ('=') 100)
  return kss.filter (fun ks => !ks.isEmpty)

/-- An OSM tag list: ordered key/value pairs. -/
abbrev TagList := List (String × String)

/-- `AmenityHandler::TestTags`.  In the source the loop body is an empty
`// TODO` stub, so the function returns `true` for every input:
`for (auto const & pair : query) { /* TODO */ } return true;`. -/
def TestTags (_tags : TagList) (_query : TQuery) : Bool :=
  true

/-- Modelled from the spec: one `Condition` of a ClauseSet holds when the
condition's key is present in the tag set and either the condition is a bare
key (wildcard value) or the tag's value is exactly, case-sensitively equal to
the condition's value (§3, §4.3). -/
def condHolds (tags : TagList) (cond : List String) : Bool :=
  match cond with
  | [] => false
  | [k] => tags.any (fun t => t.1 == k)
  | k :: v :: _ => tags.any (fun t => t.1 == k && t.2 == v)

/-- Modelled from the spec: the intended tag-matching evaluator — a ClauseSet
matches when ALL of its conditions hold (§4.3; the source's `TestTags` is an
unfinished stub, see §9 of the spec). -/
def TestTagsSpec (tags : TagList) (query : TQuery) : Bool :=
  query.all (condHolds tags)

/-- `osmium::Location::double_to_fix`: multiply by the coordinate precision
`10^7` and round to the nearest integer. -/
def double_to_fix (c : ℚ) : Int :=
  round (c * 10000000)

/-- `AmenityHandler::kSearchRadius = 0.0001` — the source comment reads
"~1 km TODO! revert to 0.01". -/
def kSearchRadius : ℚ := 1 / 10000

/-- RTree rectangle overlap for a degenerate (point) entry box against the
query box: inclusive containment on both axes. -/
def overlap (lo hi : Int × Int) (p : Int × Int) : Bool :=
  lo.1 ≤ p.1 && p.1 ≤ hi.1 && lo.2 ≤ p.2 && p.2 ≤ hi.2

/-- Modelled from the spec: `RTree.h` is not under `src/`.  Per §4.2 the
search must visit every reference point whose box intersects the query box;
each hit invokes the callback `AppendToVector` (src lines 41–44), which
appends the category id of that entry to the result vector, once per hit.
`m_tree.Search` returns the hit count; the source tests it for zero. -/
def Search (tree : List ((Int × Int) × Nat)) (lo hi : Int × Int) : List Nat :=
  (tree.filter (fun e => overlap lo hi e.1)).map (fun e => e.2)

/-- `AmenityHandler::IsEligible(loc, tags)`: empty tag list is rejected
immediately; otherwise search the box `loc ± radius`; zero hits reject;
otherwise accept iff some found category has some query accepted by
`TestTags`. -/
def IsEligible (tree : List ((Int × Int) × Nat)) (cats : Nat → List TQuery)
    (loc : Int × Int) (tags : TagList) : Bool :=
  if tags.isEmpty then false
  else
    let radius : Int := double_to_fix kSearchRadius
    let lo := (loc.1 - radius, loc.2 - radius)
    let hi := (loc.1 + radius, loc.2 + radius)
    let found := Search tree lo hi
    if found.isEmpty then false
    else found.any (fun cat_id => (cats cat_id).any (fun query => TestTags tags query))

/-- `std::stoi(s)` (base 10): skip whitespace, optional sign, at least one
digit (else it throws `std::invalid_argument`, modelled as `none`); parsing
stops at the first non-digit.  Out-of-range values are outside the modelled
domain. -/
def stoi (s : String) : Option Int :=
  let cs := s.data.dropWhile isspaceC
  let sgn : Bool × List Char :=
    match cs with
    | ('-') :: t => (true, t)
    | ('+') :: t => (false, t)
    | _ => (false, cs)
  let ds := sgn.2.takeWhile (fun c => c.isDigit)
  if ds.isEmpty then none
  else
    let n : Nat := ds.foldl (fun acc c => 10 * acc + (c.toNat - ('0').toNat)) 0
    some (if sgn.1 then -(n : Int) else (n : Int))

/-- `std::stod(s)` on plain decimal input: skip whitespace, optional sign,
digits with an optional fractional part; at least one digit is required (else
it throws `std::invalid_argument`, modelled as `none`).  Exponent, hex,
inf/nan forms do not occur in the modelled inputs. -/
def stod (s : String) : Option ℚ :=
  let cs := s.data.dropWhile isspaceC
  let sgn : Bool × List Char :=
    match cs with
    | ('-') :: t => (true, t)
    | ('+') :: t => (false, t)
    | _ => (false, cs)
  let ip := sgn.2.takeWhile (fun c => c.isDigit)
  let rest := sgn.2.drop ip.length
  let fp : List Char :=
    match rest with
    | ('.') :: t => t.takeWhile (fun c => c.isDigit)
    | _ => []
  if ip.isEmpty && fp.isEmpty then none
  else
    let ipn : Nat := ip.foldl (fun acc c => 10 * acc + (c.toNat - ('0').toNat)) 0
    let fpn : Nat := fp.foldl (fun acc c => 10 * acc + (c.toNat - ('0').toNat)) 0
    let mag : ℚ := (ipn : ℚ) + (fpn : ℚ) / ((10 : ℚ) ^ fp.length)
    some (if sgn.1 then -mag else mag)

/-- How `AmenityHandler::LoadCategories` fails.  `invalidArgument` is the
`std::invalid_argument` thrown by `std::stoi`/`std::stod` — uncaught, it
terminates the process; its message is a fixed string carrying no input
context.  `indexOOB` is `std::vector::operator[]` past the end and `splitUB`
is the out-of-bounds read inside `SplitTrim`; both are undefined behaviour in
the C++. -/
inductive LoadErr where
  | invalidArgument
  | indexOOB
  | splitUB
deriving DecidableEq

/-- The loader state of `AmenityHandler`: the `parsingPoints` flag of
`LoadCategories` plus the member fields it fills (`m_category_names`
assignments in order, `m_categories` push_backs in order, `m_tree`
insertions). -/
structure Catalog where
  parsingPoints : Bool
  names : List (Nat × String)
  cats : List (Nat × TQuery)
  tree : List ((Int × Int) × Nat)
deriving DecidableEq

def initCatalog : Catalog :=
  { parsingPoints := false, names := [], cats := [], tree := [] }

def optE (e : LoadErr) : Option α → Except LoadErr α
  | none => .error e
  | some a => .ok a

/-- One non-blank line of the first section of the category file:
`SplitTrim(line, ',', 3, parts)`, then `cat_id = std::stoi(parts[0])`
(truncated to `uint16_t`), `parts[1]` is the name and `ParseQuery(parts[2])`
the query. -/
def parseHeaderLine (line : String) : Except LoadErr (Nat × String × TQuery) := do
  let parts ← optE .splitUB (SplitTrim line (',') 3)
  let p0 ← optE .indexOOB parts[0]?
  let i ← optE .invalidArgument (stoi p0)
  let cat := (Int.emod i 65536).toNat
  let p1 ← optE .indexOOB parts[1]?
  let p2 ← optE .indexOOB parts[2]?
  let q ← optE .splitUB (ParseQuery p2)
  return (cat, p1, q)

/-- One line of the second section: `lon, lat, cat_id`; the location is built
from `std::stod` of the first two fields via `double_to_fix`, the category id
from `std::stoi` of the third. -/
def parsePointLine (line : String) : Except LoadErr ((Int × Int) × Nat) := do
  let parts ← optE .splitUB (SplitTrim line (',') 3)
  let p0 ← optE .indexOOB parts[0]?
  let lon ← optE .invalidArgument (stod p0)
  let p1 ← optE .indexOOB parts[1]?
  let lat ← optE .invalidArgument (stod p1)
  let p2 ← optE .indexOOB parts[2]?
  let i ← optE .invalidArgument (stoi p2)
  let cat := (Int.emod i 65536).toNat
  return ((double_to_fix lon, double_to_fix lat), cat)

/-- One `std::getline` iteration of `AmenityHandler::LoadCategories`: a blank
line switches to the points section; otherwise the line is parsed according
to the current section and the state fields are extended. -/
def loadStep (st : Catalog) (line : String) : Except LoadErr Catalog :=
  if st.parsingPoints = false then
    if line.length = 0 then .ok { st with parsingPoints := true }
    else
      match parseHeaderLine line with
      | .error e => .error e
      | .ok (cat, name, q) =>
          .ok { st with names := st.names ++ [(cat, name)],
                        cats := st.cats ++ [(cat, q)] }
  else
    match parsePointLine line with
    | .error e => .error e
    | .ok (pt, cat) => .ok { st with tree := st.tree ++ [(pt, cat)] }

/-- `AmenityHandler::LoadCategories`, over the list of input lines.  The C++
exceptions/undefined behaviour abort the fold. -/
def LoadCategories (lines : List String) : Except LoadErr Catalog :=
  lines.foldlM loadStep initCatalog

/-- `m_categories[id]` after loading: the queries pushed for `id`, in push
order. -/
def queries_for (c : Catalog) (id : Nat) : List TQuery :=
  (c.cats.filter (fun p => p.1 == id)).map (fun p => p.2)

/-- Modelled from the spec: the ClauseSets declared for `id` in the
category-definition input, in declaration order (§8): the lines of the first
section (before the first blank line) whose id field parses to `id`, each
contributing its parsed query. -/
def declaredQueries (lines : List String) (id : Nat) : List TQuery :=
  (lines.takeWhile (fun l => l.length != 0)).filterMap (fun l =>
    match parseHeaderLine l with
    | .ok (cat, _, q) => if cat = id then some q else none
    | .error _ => none)

/-- One entry of an `osmium::NodeRefList`: the node id and, when the location
index resolved it, its fixed-point location. -/
structure NodeRef where
  ref : Int
  loc : Option (Int × Int)
deriving DecidableEq

/-- `osmium::Way::is_closed()`: the first and the last node reference carry
the same id. -/
def wayIsClosed (ns : List NodeRef) : Bool :=
  (ns.head?.map (fun n => n.ref)) == (ns.getLast?.map (fun n => n.ref))

/-- The accumulation loop shared by `AmenityHandler::way` and
`AmenityRelationsManager::complete_relation`: add every resolved node
location to the running `(x, y, cnt)` sums. -/
def addLocs (acc : Int × Int × Int) (ns : List NodeRef) : Int × Int × Int :=
  ns.foldl
    (fun a nr =>
      match nr.loc with
      | some l => (a.1 + l.1, a.2.1 + l.2, a.2.2 + 1)
      | none => a)
    acc

/-- The centroid computed by `AmenityHandler::way`: `none` when the way is
not closed or no node location is resolved, otherwise the truncating integer
mean (`int64_t` division) of the resolved locations. -/
def wayCentroid (ns : List NodeRef) : Option (Int × Int) :=
  if wayIsClosed ns = false then none
  else
    let s := addLocs (0, 0, 0) ns
    if s.2.2 = 0 then none
    else some (Int.tdiv s.1 s.2.2, Int.tdiv s.2.1 s.2.2)

/-- `AmenityHandler::way` as an emission function: the way is printed (with
its centre) only when a centroid exists and `IsEligible` accepts it. -/
def wayHandle (tree : List ((Int × Int) × Nat)) (cats : Nat → List TQuery)
    (ns : List NodeRef) (tags : TagList) : Option (Int × Int) :=
  match wayCentroid ns with
  | none => none
  | some c => if IsEligible tree cats c tags then some c else none

/-- One member of a completed multipolygon relation as
`AmenityRelationsManager::complete_relation` sees it: the member reference id
and the node list of the member way delivered by `get_member_way`. -/
structure Member where
  ref : Int
  way : List NodeRef
deriving DecidableEq

/-- The sums of `complete_relation`: every member with non-zero reference
contributes all its resolved node locations. -/
def relSum (ms : List Member) : Int × Int × Int :=
  ms.foldl (fun acc m => if m.ref == 0 then acc else addLocs acc m.way) (0, 0, 0)

/-- The centroid computed by `AmenityRelationsManager::complete_relation`:
when `cnt > 0` the relation is handed to `AmenityHandler::multi` with the
truncating integer mean; otherwise the relation is dropped silently. -/
def relCentroid (ms : List Member) : Option (Int × Int) :=
  let s := relSum ms
  if s.2.2 > 0 then some (Int.tdiv s.1 s.2.2, Int.tdiv s.2.1 s.2.2) else none

/-- The resolved locations a relation's members contribute, in order:
members with reference id `0` are skipped, the others contribute their
resolved node locations. -/
def relLocs (ms : List Member) : List (Int × Int) :=
  (ms.map (fun m =>
    if m.ref == 0 then [] else m.way.filterMap NodeRef.loc)).flatten

/-! Concrete fixtures used by counterexamples and witnesses. -/

/-- One reference point of category 1 at the origin. -/
def tree0 : List ((Int × Int) × Nat) := [((0, 0), 1)]

/-- A category table mapping every id to the single query `amenity=cafe`. -/
def cats0 : Nat → List TQuery := fun _ => [[["amenity", "cafe"]]]

/-- Two reference points of the same category 5. -/
def tree7 : List ((Int × Int) × Nat) := [((0, 0), 5), ((3, 3), 5)]

/-- A field whose trailing area contains a space before the delimiter. -/
def s5a : String := "a ,b"

/-- A string with trailing whitespace and no delimiter. -/
def s5b : String := "a "

/-- The fixed-point search radius the handler actually uses. -/
theorem kSearchRadius_fix : double_to_fix kSearchRadius = 1000 := by
  rw [double_to_fix, kSearchRadius]
  norm_num

/-! ## Claim theorems -/

/-- C1: the claim states that `TestTags` returns true iff every condition of
the ClauseSet holds (key present and value wildcard or exactly equal).  The
source's `TestTags` is an empty TODO stub and returns `true` unconditionally:
on tags `amenity=bar` against the query `amenity=cafe` it returns `true`
although the condition fails (the spec-intended evaluator returns `false`).
This contradicts the code's own intent (`// TODO` loop body, and spec §9
names the stub unfinished), so the code, not the claim, is wrong. -/
theorem c1_test_tags_stub :
    TestTags [("amenity", "bar")] [["amenity", "cafe"]] = true ∧
    TestTagsSpec [("amenity", "bar")] [["amenity", "cafe"]] = false := by
  decide

/-- C5: the claim states every token of `SplitTrim` has leading and trailing
whitespace removed.  The trailing-trim loop of the source increments `tmpend`
instead of decrementing it, so trailing whitespace is never removed; worse,
the scan walks forward across the delimiter: splitting `"a ,b"` on the comma
yields the token `"a ,"` (trailing space and the delimiter retained), and
`"a "` stays `"a "`. -/
theorem c5_split_trim_keeps_trailing_space :
    SplitTrim s5a (',') 100 = some ["a ,", "b"] ∧
    SplitTrim s5b (',') 100 = some ["a "] := by
  decide

/-- C6: the claim states the default search radius approximates ~1 km
(about 0.01 in degree units).  The source sets `kSearchRadius = 0.0001`
(fixed-point 1000, about 11 m) while its own comment reads
"~1 km TODO! revert to 0.01" (0.01 would be fixed-point 100000): the code
contradicts its documentation. -/
theorem c6_search_radius :
    kSearchRadius = 1 / 10000 ∧
    double_to_fix kSearchRadius = 1000 ∧
    ¬ kSearchRadius = 1 / 100 ∧
    double_to_fix (1 / 100) = 100000 := by
  refine ⟨rfl, kSearchRadius_fix, by norm_num [kSearchRadius], ?_⟩
  rw [double_to_fix]
  norm_num

/-- C10: an entity with an empty tag list is never eligible, whatever the
spatial index and category table hold: `IsEligible` rejects it before any
spatial search. -/
theorem c10_empty_tags_never_eligible :
    ∀ (tree : List ((Int × Int) × Nat)) (cats : Nat → List TQuery)
      (loc : Int × Int), IsEligible tree cats loc [] = false := by
  intro tree cats loc
  rfl

/-- C2 (counterexample): as stated, the claim says `IsEligible` is true IFF
the searched box is non-empty and some returned category has a satisfied
ClauseSet.  With an empty tag list the right-hand side can hold (the box
around the origin contains the reference point, and the stub `TestTags`
accepts) while `IsEligible` returns false because of its empty-tags guard:
the "if and only if" fails. -/
theorem c2_is_eligible_cex :
    ¬ (IsEligible tree0 cats0 (0, 0) [] = true ↔
        (Search tree0 (-1000, -1000) (1000, 1000) ≠ [] ∧
         ∃ cat_id ∈ Search tree0 (-1000, -1000) (1000, 1000),
           ∃ query ∈ cats0 cat_id, TestTags [] query = true)) := by
  intro h
  have hr : Search tree0 (-1000, -1000) (1000, 1000) ≠ [] ∧
      ∃ cat_id ∈ Search tree0 (-1000, -1000) (1000, 1000),
        ∃ query ∈ cats0 cat_id, TestTags [] query = true := by
    refine ⟨by decide, 1, by decide, [["amenity", "cafe"]], by decide, rfl⟩
  have hl : IsEligible tree0 cats0 (0, 0) [] = false := rfl
  rw [h.mpr hr] at hl
  exact Bool.noConfusion hl

/-- C2 (amended): `IsEligible` returns true iff the tag set is non-empty AND
the search of the box centred at the centroid expanded by the search radius
on both axes yields at least one category AND some returned category has a
ClauseSet accepted by the tag test (the source's `TestTags`). -/
theorem c2_is_eligible_iff (tree : List ((Int × Int) × Nat))
    (cats : Nat → List TQuery) (loc : Int × Int) (tags : TagList) :
    IsEligible tree cats loc tags = true ↔
      (tags ≠ [] ∧
       Search tree (loc.1 - double_to_fix kSearchRadius, loc.2 - double_to_fix kSearchRadius)
         (loc.1 + double_to_fix kSearchRadius, loc.2 + double_to_fix kSearchRadius) ≠ [] ∧
       ∃ cat_id ∈ Search tree
           (loc.1 - double_to_fix kSearchRadius, loc.2 - double_to_fix kSearchRadius)
           (loc.1 + double_to_fix kSearchRadius, loc.2 + double_to_fix kSearchRadius),
         ∃ query ∈ cats cat_id, TestTags tags query = true) := by
  cases tags with
  | nil => simp [IsEligible]
  | cons a t =>
    simp only [IsEligible, List.isEmpty_cons, Bool.false_eq_true, if_false, ne_eq,
      reduceCtorEq, not_false_eq_true, true_and]
    cases hf : Search tree
        (loc.1 - double_to_fix kSearchRadius, loc.2 - double_to_fix kSearchRadius)
        (loc.1 + double_to_fix kSearchRadius, loc.2 + double_to_fix kSearchRadius) with
    | nil => simp [hf]
    | cons c cs => simp [hf, List.any_eq_true]

/-- C7 (counterexample): the claim says the search result is a set with
duplicates collapsed — each category id appears at most once.  With two
reference points of category 5 inside the query box, the collected vector
contains 5 twice. -/
theorem c7_search_dup_cex :
    ¬ ((Search tree7 (-10, -10) (10, 10)).count 5 ≤ 1) := by
  decide

/-- C7 (amended): the search yields one category id per reference point
whose (degenerate) box intersects the query box, so an id occurs once per
such point — duplicates are NOT collapsed: the count of an id in the result
equals the number of its reference points intersecting the box.  Membership
is still exactly "some reference point of that category intersects the box",
which is all the existential scan in `IsEligible` consumes, so the
duplicates do not change any eligibility outcome. -/
theorem c7_search_characterization (tree : List ((Int × Int) × Nat))
    (lo hi : Int × Int) (c : Nat) :
    ((Search tree lo hi).count c =
       (tree.filter (fun e => overlap lo hi e.1 && e.2 == c)).length) ∧
    (c ∈ Search tree lo hi ↔ ∃ p, (p, c) ∈ tree ∧ overlap lo hi p = true) := by
  constructor
  · induction tree with
    | nil => rfl
    | cons e es ih =>
      by_cases h1 : overlap lo hi e.1 = true
      · by_cases h2 : (e.2 == c) = true
        · simp [Search, List.filter_cons, h1, h2, List.count_cons, ih]
          simpa [Search] using ih
        · simp only [Bool.not_eq_true] at h2
          simp [Search, List.filter_cons, h1, h2, List.count_cons]
          simpa [Search] using ih
      · simp only [Bool.not_eq_true] at h1
        simp [Search, List.filter_cons, h1]
        simpa [Search] using ih
  · constructor
    · intro hc
      simp only [Search, List.mem_map, List.mem_filter] at hc
      obtain ⟨e, ⟨hmem, hov⟩, hsnd⟩ := hc
      exact ⟨e.1, by rwa [show ((e.1, c) : (Int × Int) × Nat) = e by
        cases e with | mk p q => simp at hsnd; simp [hsnd]], hov⟩
    · intro hc
      obtain ⟨p, hmem, hov⟩ := hc
      simp only [Search, List.mem_map, List.mem_filter]
      exact ⟨(p, c), ⟨hmem, hov⟩, rfl⟩

/-- The accumulation loop computes the component sums and the count of the
resolved locations. -/
theorem addLocs_eq (ns : List NodeRef) (acc : Int × Int × Int) :
    addLocs acc ns =
      (acc.1 + ((ns.filterMap NodeRef.loc).map Prod.fst).sum,
       acc.2.1 + ((ns.filterMap NodeRef.loc).map Prod.snd).sum,
       acc.2.2 + ((ns.filterMap NodeRef.loc).length : Int)) := by
  induction ns generalizing acc with
  | nil => simp [addLocs]
  | cons n ns ih =>
    cases hl : n.loc with
    | none =>
      simp only [addLocs, List.foldl_cons, hl]
      rw [show (ns.foldl _ acc) = addLocs acc ns from rfl, ih]
      simp [List.filterMap_cons, hl]
    | some l =>
      simp only [addLocs, List.foldl_cons, hl]
      rw [show (ns.foldl _ (acc.1 + l.1, acc.2.1 + l.2, acc.2.2 + 1)) =
            addLocs (acc.1 + l.1, acc.2.1 + l.2, acc.2.2 + 1) ns from rfl, ih]
      simp only [List.filterMap_cons, hl, List.map_cons, List.sum_cons, List.length_cons]
      refine Prod.ext (by ring) (Prod.ext (by ring) ?_)
      push_cast
      ring

/-- The resolved locations of a closed way. -/
def wayLocs (ns : List NodeRef) : List (Int × Int) :=
  ns.filterMap NodeRef.loc

/-- C3: for a closed way with at least one resolved vertex, the centroid is
the component-wise truncating integer mean (`int64_t` division) of the
resolved ring vertices; for a way that is not closed or has no resolved
vertex no centroid is produced, the way is not emitted, and the (total)
function returns rather than crashing. -/
theorem c3_way_centroid (ns : List NodeRef) :
    (wayIsClosed ns = true → wayLocs ns ≠ [] →
       wayCentroid ns = some
         (Int.tdiv ((wayLocs ns).map Prod.fst).sum ((wayLocs ns).length : Int),
          Int.tdiv ((wayLocs ns).map Prod.snd).sum ((wayLocs ns).length : Int))) ∧
    ((wayIsClosed ns = false ∨ wayLocs ns = []) →
       wayCentroid ns = none ∧
       ∀ (tree : List ((Int × Int) × Nat)) (cats : Nat → List TQuery)
         (tags : TagList), wayHandle tree cats ns tags = none) := by
  have hsum := addLocs_eq ns (0, 0, 0)
  simp only [Prod.fst, Prod.snd, zero_add] at hsum
  constructor
  · intro hclosed hne
    rw [wayCentroid, hclosed]
    simp only [Bool.true_eq_false, if_false, hsum, wayLocs]
    have hlen : ((ns.filterMap NodeRef.loc).length : Int) ≠ 0 := by
      simpa [wayLocs] using hne
    simp [hlen]
  · intro hbad
    have hnone : wayCentroid ns = none := by
      cases hbad with
      | inl hop => rw [wayCentroid, hop]; simp
      | inr hempty =>
        rw [wayCentroid]
        simp only [hsum, wayLocs] at *
        simp [hempty]
    exact ⟨hnone, fun tree cats tags => by rw [wayHandle, hnone]⟩

/-- A closed way fixture: refs 1,2,1 with vertices (2,3), unresolved, (5,8). -/
def ns3 : List NodeRef :=
  [{ ref := 1, loc := some (2, 3) }, { ref := 2, loc := none },
   { ref := 1, loc := some (5, 8) }]

/-- An open way fixture. -/
def ns3open : List NodeRef :=
  [{ ref := 1, loc := some (2, 3) }, { ref := 2, loc := some (5, 8) }]

/-- Witness for C3: on the closed fixture the centroid is the truncating
mean `(3, 5)` of `(2,3)` and `(5,8)`; the open fixture yields no centroid
and no emission. -/
theorem c3_way_centroid_witness :
    wayCentroid ns3 = some (3, 5) ∧
    (wayCentroid ns3open = none ∧
      ∀ (tree : List ((Int × Int) × Nat)) (cats : Nat → List TQuery)
        (tags : TagList), wayHandle tree cats ns3open tags = none) := by
  constructor
  · have h := (c3_way_centroid ns3).1 (by decide) (by decide)
    rw [h]
    decide
  · exact (c3_way_centroid ns3open).2 (Or.inl (by decide))

/-- `relSum` computes the component sums and the count of all locations the
members contribute. -/
theorem relSum_eq (ms : List Member) :
    relSum ms =
      (((relLocs ms).map Prod.fst).sum,
       ((relLocs ms).map Prod.snd).sum,
       ((relLocs ms).length : Int)) := by
  suffices h : ∀ (acc : Int × Int × Int),
      ms.foldl (fun acc m => if m.ref == 0 then acc else addLocs acc m.way) acc =
        (acc.1 + ((relLocs ms).map Prod.fst).sum,
         acc.2.1 + ((relLocs ms).map Prod.snd).sum,
         acc.2.2 + ((relLocs ms).length : Int)) by
    rw [relSum, h (0, 0, 0)]
    simp
  induction ms with
  | nil => intro acc; simp [relLocs]
  | cons m ms ih =>
    intro acc
    rw [List.foldl_cons, ih]
    by_cases hz : (m.ref == 0) = true
    · have hz' : m.ref = 0 := by simpa using hz
      simp [relLocs, hz, hz']
    · simp only [hz, Bool.false_eq_true, if_false, addLocs_eq]
      simp only [relLocs, List.map_cons, List.flatten_cons, hz, Bool.false_eq_true,
        if_false, List.map_append, List.sum_append, List.length_append]
      refine Prod.ext ?_ (Prod.ext ?_ ?_) <;> simp <;> omega

/-- C4: the centroid of a completed multipolygon relation is the
component-wise truncating integer mean of all resolved vertices contributed
by its members; a member contributing no resolved vertex does not change the
result; when no member contributes any vertex the relation is silently
skipped (`none`), and being a total function the pipeline step cannot
crash. -/
theorem c4_rel_centroid (ms : List Member) :
    (relLocs ms = [] → relCentroid ms = none) ∧
    (relLocs ms ≠ [] →
       relCentroid ms = some
         (Int.tdiv ((relLocs ms).map Prod.fst).sum ((relLocs ms).length : Int),
          Int.tdiv ((relLocs ms).map Prod.snd).sum ((relLocs ms).length : Int))) ∧
    (∀ m : Member, m.way.filterMap NodeRef.loc = [] →
       relCentroid (m :: ms) = relCentroid ms) := by
  refine ⟨?_, ?_, ?_⟩
  · intro hempty
    rw [relCentroid, relSum_eq]
    simp [hempty]
  · intro hne
    rw [relCentroid, relSum_eq]
    have hlen : (0 : Int) < ((relLocs ms).length : Int) := by
      have : 0 < (relLocs ms).length := List.length_pos.mpr hne
      exact_mod_cast this
    simp [hlen]
  · intro m hm
    have hlocs : relLocs (m :: ms) = relLocs ms := by
      rw [relLocs, relLocs, List.map_cons, List.flatten_cons]
      by_cases hz : (m.ref == 0) = true
      · simp [hz]
      · simp only [Bool.not_eq_true] at hz
        simp [hz, hm]
    rw [relCentroid, relCentroid, relSum_eq, relSum_eq, hlocs]

/-- A relation fixture: a zero-ref member (skipped), a member with only an
unresolved node, and a member with two resolved nodes. -/
def ms4 : List Member :=
  [{ ref := 0, way := [{ ref := 1, loc := some (100, 100) }] },
   { ref := 7, way := [{ ref := 2, loc := none }] },
   { ref := 8, way := [{ ref := 3, loc := some (4, 6) },
                       { ref := 4, loc := some (6, 10) }] }]

/-- A member contributing no resolved vertex. -/
def m4empty : Member := { ref := 9, way := [{ ref := 5, loc := none }] }

/-- A relation fixture with no contributing member at all. -/
def ms4empty : List Member :=
  [{ ref := 0, way := [{ ref := 1, loc := some (100, 100) }] }, m4empty]

/-- Witness for C4: on the fixture the centroid is the truncating mean
`(5, 8)` of `(4,6)` and `(6,10)`; prepending a member without resolved
vertices changes nothing; a relation whose members contribute nothing is
skipped. -/
theorem c4_rel_centroid_witness :
    relCentroid ms4 = some (5, 8) ∧
    relCentroid (m4empty :: ms4) = relCentroid ms4 ∧
    relCentroid ms4empty = none := by
  refine ⟨?_, ?_, ?_⟩
  · have h := (c4_rel_centroid ms4).2.1 (by decide)
    rw [h]
    decide
  · exact (c4_rel_centroid ms4).2.2 m4empty (by decide)
  · exact (c4_rel_centroid ms4empty).1 (by decide)

instance exceptDecEq {ε α : Type} [DecidableEq ε] [DecidableEq α] :
    DecidableEq (Except ε α) := fun x y =>
  match x, y with
  | .ok a, .ok b =>
    if h : a = b then .isTrue (by rw [h])
    else .isFalse (fun hc => h (Except.ok.inj hc))
  | .ok _, .error _ => .isFalse (fun hc => Except.noConfusion hc)
  | .error _, .ok _ => .isFalse (fun hc => Except.noConfusion hc)
  | .error e, .error f =>
    if h : e = f then .isTrue (by rw [h])
    else .isFalse (fun hc => h (Except.error.inj hc))

/-- A category-file line whose id field is not numeric. -/
def badLine : String := "abc,A,k=v"

/-- Another malformed line, different from `badLine`. -/
def badLine2 : String := "xyz,B,u=v"

/-- A header line with fewer than three fields. -/
def shortLine : String := "5"

/-- C8 (counterexample): the claim says loading fails with a condition
identifying the offending line.  Two different malformed lines produce the
IDENTICAL failure (the constant `std::invalid_argument` thrown by
`std::stoi`, whose message is a fixed string), so the failure cannot
identify the offending line; and a line with missing fields does not fail
cleanly at all — it indexes the token vector out of bounds (undefined
behaviour, modelled as `indexOOB`). -/
theorem c8_load_error_cex :
    LoadCategories [badLine] = LoadCategories [badLine2] ∧
    badLine ≠ badLine2 ∧
    LoadCategories [badLine] = Except.error LoadErr.invalidArgument ∧
    LoadCategories [shortLine] = Except.error LoadErr.indexOOB := by
  refine ⟨by decide, by decide, by decide, by decide⟩

/-- C8 (amended): for any input that reaches a line whose current-section
numeric field is malformed — a header line with a non-numeric id, or a
reference-point line with a non-numeric longitude, latitude or category id —
catalog loading aborts with the (anonymous, constant) invalid-argument
failure — so no partially loaded catalog is ever returned or used for
filtering — but the failure does not identify the offending line, and
missing-field lines are undefined behaviour rather than a clean
diagnostic. -/
theorem c8_load_aborts (pre : List String) (bad : String) (rest : List String)
    (st : Catalog)
    (hpre : List.foldlM loadStep initCatalog pre = Except.ok st)
    (hbad :
      (st.parsingPoints = false ∧ bad.length ≠ 0 ∧
        ∃ parts p0, SplitTrim bad (',') 3 = some parts ∧
          parts[0]? = some p0 ∧ stoi p0 = none) ∨
      (st.parsingPoints = true ∧
        ∃ parts, SplitTrim bad (',') 3 = some parts ∧
          ((∃ p0, parts[0]? = some p0 ∧ stod p0 = none) ∨
           (∃ p0 x p1, parts[0]? = some p0 ∧ stod p0 = some x ∧
             parts[1]? = some p1 ∧ stod p1 = none) ∨
           (∃ p0 x p1 y p2, parts[0]? = some p0 ∧ stod p0 = some x ∧
             parts[1]? = some p1 ∧ stod p1 = some y ∧
             parts[2]? = some p2 ∧ stoi p2 = none)))) :
    LoadCategories (pre ++ bad :: rest) = Except.error LoadErr.invalidArgument := by
  have hstep : loadStep st bad = Except.error LoadErr.invalidArgument := by
    rcases hbad with ⟨hpts, hlen, parts, p0, hS, h0, hstoi⟩ |
      ⟨hpts, parts, hS, hfield⟩
    · have hph : parseHeaderLine bad = Except.error LoadErr.invalidArgument := by
        simp [parseHeaderLine, hS, h0, hstoi, optE, Bind.bind, Except.bind]
      simp [loadStep, hpts, hlen, hph]
    · have hpl : parsePointLine bad = Except.error LoadErr.invalidArgument := by
        rcases hfield with ⟨p0, h0, hlon⟩ | ⟨p0, x, p1, h0, hlon, h1, hlat⟩ |
          ⟨p0, x, p1, y, p2, h0, hlon, h1, hlat, h2, hcat⟩
        · simp [parsePointLine, hS, h0, hlon, optE, Bind.bind, Except.bind]
        · simp [parsePointLine, hS, h0, hlon, h1, hlat, optE, Bind.bind,
            Except.bind]
        · simp [parsePointLine, hS, h0, hlon, h1, hlat, h2, hcat, optE,
            Bind.bind, Except.bind]
      simp [loadStep, hpts, hpl]
  rw [LoadCategories, List.foldlM_append, hpre]
  simp only [bind, Except.bind, List.foldlM_cons, hstep]

/-- A reference-point line whose longitude field is not numeric. -/
def badPointLine : String := "x,52.5,1"

/-- Witness for C8: a malformed header line aborts the load, and so does a
reference-point line with a non-numeric coordinate after the blank-line
section switch. -/
theorem c8_load_aborts_witness :
    LoadCategories [badLine] = Except.error LoadErr.invalidArgument ∧
    LoadCategories ["", badPointLine] =
      Except.error LoadErr.invalidArgument := by
  constructor
  · refine c8_load_aborts [] badLine [] initCatalog rfl (Or.inl ?_)
    exact ⟨rfl, by decide, ["abc", "A", "k=v"], "abc", by decide, by decide,
      by decide⟩
  · refine c8_load_aborts [""] badPointLine []
      { initCatalog with parsingPoints := true } (by decide) (Or.inr ?_)
    exact ⟨rfl, ["x", "52.5", "1"], by decide,
      Or.inl ⟨"x", by decide, by decide⟩⟩

/-- The `(id, query)` pair a header line contributes, when it parses. -/
def headerPair (l : String) : Option (Nat × TQuery) :=
  match parseHeaderLine l with
  | .ok (cat, _, q) => some (cat, q)
  | .error _ => none

/-- Loader invariant: a successful fold over the lines appends to `cats`
exactly the pairs contributed by the header lines (the prefix before the
first blank line), in order — nothing once the points section started. -/
theorem load_cats_invariant (lines : List String) :
    ∀ (st c : Catalog), List.foldlM loadStep st lines = Except.ok c →
      c.cats = st.cats ++
        (if st.parsingPoints = true then [] else
          (lines.takeWhile (fun l => l.length != 0)).filterMap headerPair) := by
  induction lines with
  | nil =>
    intro st c h
    simp only [List.foldlM_nil] at h
    cases h
    simp
  | cons l ls ih =>
    intro st c h
    rw [List.foldlM_cons] at h
    cases hstep : loadStep st l with
    | error e => rw [hstep] at h; simp [Bind.bind, Except.bind] at h
    | ok st1 =>
      rw [hstep] at h
      replace h : List.foldlM loadStep st1 ls = Except.ok c := by
        simpa [Bind.bind, Except.bind] using h
      have hc := ih st1 c h
      by_cases hp : st.parsingPoints = true
      · have h1 : st1.parsingPoints = true ∧ st1.cats = st.cats := by
          rw [loadStep] at hstep
          rw [hp] at hstep
          simp only [Bool.true_eq_false, if_false] at hstep
          cases hpl : parsePointLine l with
          | error e => rw [hpl] at hstep; simp at hstep
          | ok pc =>
            rw [hpl] at hstep
            cases hstep
            exact ⟨rfl, rfl⟩
        rw [hc, h1.2, if_pos h1.1, if_pos hp]
      · have hp' : st.parsingPoints = false := by
          simpa using hp
        have hgoal : (if st.parsingPoints = true then ([] : List (Nat × TQuery)) else
            ((l :: ls).takeWhile (fun l => l.length != 0)).filterMap headerPair) =
            ((l :: ls).takeWhile (fun l => l.length != 0)).filterMap headerPair := by
          rw [if_neg hp]
        rw [hgoal, List.takeWhile_cons]
        by_cases hl0 : l.length = 0
        · have h1 : st1.parsingPoints = true ∧ st1.cats = st.cats := by
            rw [loadStep, hp'] at hstep
            simp only [if_true, hl0, if_pos rfl] at hstep
            cases hstep
            exact ⟨rfl, rfl⟩
          have hpred : (l.length != 0) = false := by
            simp [hl0]
          rw [hc, h1.2, if_pos h1.1, hpred]
          simp
        · cases hph : parseHeaderLine l with
          | error e =>
            rw [loadStep, hp'] at hstep
            simp [hl0, hph] at hstep
          | ok t =>
            obtain ⟨cat, name, q⟩ := t
            have h1 : st1.parsingPoints = false ∧
                st1.cats = st.cats ++ [(cat, q)] := by
              rw [loadStep, hp'] at hstep
              simp only [if_true, if_neg hl0, hph] at hstep
              cases hstep
              exact ⟨rfl, rfl⟩
            have hpred : (l.length != 0) = true := by
              simp [hl0]
            rw [hc, h1.2, if_neg (by rw [h1.1]; exact Bool.false_ne_true), hpred]
            simp only [if_true, List.filterMap_cons, headerPair, hph]
            simp [List.append_assoc]

/-- C9: for every input the loader accepts, the queries stored for a
category id are exactly the ClauseSets declared for that id in the header
section, in declaration order — lines sharing an id accumulate, none
replaces an earlier one. -/
theorem c9_queries_accumulate (lines : List String) (c : Catalog)
    (h : LoadCategories lines = Except.ok c) (id : Nat) :
    queries_for c id = declaredQueries lines id := by
  have hc := load_cats_invariant lines initCatalog c h
  simp only [initCatalog, Bool.false_eq_true, if_false, List.nil_append] at hc
  rw [queries_for, hc]
  rw [declaredQueries]
  generalize (lines.takeWhile fun l => l.length != 0) = L
  induction L with
  | nil => rfl
  | cons l L ihL =>
    rw [List.filterMap_cons, List.filterMap_cons, headerPair]
    cases hph : parseHeaderLine l with
    | error e => simpa using ihL
    | ok t =>
      obtain ⟨cat, name, q⟩ := t
      by_cases hid : cat = id
      · simp only [List.filter_cons, hid, beq_self_eq_true, if_true, if_pos rfl,
          List.map_cons]
        rw [ihL]
      · have hbeq : ((cat, q).1 == id) = false := by
          simpa using hid
        simp only [List.filter_cons, hbeq, Bool.false_eq_true, if_false,
          if_neg hid]
        exact ihL

/-- Header lines declaring two queries for id 1 and one for id 2. -/
def l9 : List String := ["1,A,k=v", "1,A,p", "2,B,x=y"]

/-- The catalog the loader builds from `l9`. -/
def cat9 : Catalog :=
  { parsingPoints := false, names := [(1, "A"), (1, "A"), (2, "B")],
    cats := [(1, [["k", "v"]]), (1, [["p"]]), (2, [["x", "y"]])], tree := [] }

/-- Witness for C9: on `l9` the stored queries for id 1 are exactly the two
declared ClauseSets, in declaration order. -/
theorem c9_queries_accumulate_witness :
    queries_for cat9 1 = declaredQueries l9 1 ∧
    queries_for cat9 1 = [[["k", "v"]], [["p"]]] := by
  exact ⟨c9_queries_accumulate l9 cat9 (by decide) 1, by decide⟩

end PlanetFilter
